import Mathlib

/-!
Verification development for the rovo reverse-mode autodiff core.

Shallow embedding of the Rust sources:
  * src/aten/native/resize.rs   (resize_bytes, may_be_resize_storage_cpu, resize_impl_cpu)
  * src/tensor/tensor_impl.rs   (set_sizes_contiguous, empty_tensor_restride, compute_contiguous)
  * src/engine/engine.rs        (compute_dependencies, evaluate_function, thread_main, execute)
  * src/util_autograd.rs        (grad_accumulator, gradient_edge, collect_next_edges, set_history)
  * src/tensor/tensor_ops.rs    (mean)
  * src/ops.rs                  (Add, AddBackWard)

Machine integers (usize) are modelled as Nat; Rust panics as the error value
of an Except; raw byte buffers as lists of Nat; f64 values in the toy
Variable module as rationals.  Parts of the repository that are referenced
from the embedded files but whose sources are not available (engine/task.rs,
the Node enum of the tensor-level ops module, variable.rs) are modelled
from the spec; each such definition's doc comment says so.
-/

/-- Outcome of a Rust `panic!` (or `todo!`), which aborts the call. -/
inductive PanicE where
  | panic
  deriving Repr, DecidableEq

/-- Embeds `StorageImpl` (c10): a byte buffer with its recorded size and
the resizable flag.  `data_ptr` is the allocation's content, one Nat per
byte. -/
structure StorageImpl where
  data_ptr : List Nat
  nbytes : Nat
  resizable : Bool
  deriving Repr, DecidableEq

/-- Embeds `resize_bytes` (src/aten/native/resize.rs).  The allocator is an
external collaborator; `fresh` stands for the buffer returned by
`allocator().allocate(size_bytes)`, with arbitrary (uninitialized)
content.  A non-resizable storage panics; otherwise the new buffer is
installed, `nbytes` updated, and the first `min(old_capacity, nbytes)`
bytes are copied forward from the old buffer when it was non-empty. -/
def resize_bytes (storage : StorageImpl) (size_bytes : Nat) (fresh : List Nat) :
    Except PanicE StorageImpl :=
  if storage.resizable then
    let new_data := if size_bytes ≠ 0 then fresh else []
    let old_data := storage.data_ptr
    let old_capacity := storage.nbytes
    let s := { storage with data_ptr := new_data, nbytes := size_bytes }
    if ¬ old_data.isEmpty then
      let copy_capacity := if s.nbytes < old_capacity then s.nbytes else old_capacity
      if 0 < copy_capacity then
        .ok { s with data_ptr := old_data.take copy_capacity ++ new_data.drop copy_capacity }
      else .ok s
    else .ok s
  else .error .panic

/-- Embeds the tensor metadata record (`TensorImpl` in
src/tensor/tensor_impl.rs; `NewTensorImpl` used by resize.rs carries the
same fields).  `itemsize` stands for `dtype().itemsize()`. -/
structure TensorImpl where
  sizes : List Nat
  strides : List Nat
  storage_offset : Nat
  numel : Nat
  itemsize : Nat
  storage : StorageImpl
  is_contiguous : Bool
  is_non_overlapping_and_dense : Bool
  deriving Repr, DecidableEq

/-- Embeds the stride loop of `empty_tensor_restride` for
`MemoryFormat::Contiguous` (src/tensor/tensor_impl.rs): last dimension
stride 1, each preceding stride = next stride * max(next size, 1). -/
def contiguousStrides : List Nat → List Nat
  | [] => []
  | [_] => [1]
  | _ :: b :: rest =>
      let tailStrides := contiguousStrides (b :: rest)
      tailStrides.headD 1 * max b 1 :: tailStrides

/-- Embeds the walk of `compute_contiguous` (src/tensor/tensor_impl.rs):
the pairs are (size, stride) from the LAST dimension to the first, `z` the
expected-stride accumulator. -/
def ccLoop : List (Nat × Nat) → Nat → Bool
  | [], _ => true
  | (sz, st) :: rest, z =>
      if sz ≠ 1 then
        if st = z then ccLoop rest (z * sz) else false
      else ccLoop rest z

/-- Embeds `TensorImpl::compute_contiguous`: an empty tensor is contiguous
by convention, otherwise the last-to-first stride walk decides. -/
def TensorImpl.compute_contiguous (t : TensorImpl) : Bool :=
  if t.numel = 0 then true
  else ccLoop ((t.sizes.zip t.strides).reverse) 1

/-- Embeds `TensorImpl::set_sizes_contiguous`: install the new sizes,
refresh `numel`, restride for the contiguous layout, refresh the
contiguity flags. -/
def TensorImpl.set_sizes_contiguous (t : TensorImpl) (new_size : List Nat) : TensorImpl :=
  let t1 := { t with sizes := new_size, numel := new_size.prod }
  let t2 := { t1 with strides := contiguousStrides new_size }
  { t2 with is_contiguous := t2.compute_contiguous,
            is_non_overlapping_and_dense := t2.compute_contiguous }

/-- Embeds `may_be_resize_storage_cpu` (src/aten/native/resize.rs): only a
positive element count is considered, and the storage is grown only when
the required bytes exceed the current `nbytes`. -/
def may_be_resize_storage_cpu (t : TensorImpl) (new_size : Nat) (fresh : List Nat) :
    Except PanicE TensorImpl :=
  if 0 < new_size then
    let new_size_bytes := (new_size + t.storage_offset) * t.itemsize
    if t.storage.nbytes < new_size_bytes then
      match resize_bytes t.storage new_size_bytes fresh with
      | .error e => .error e
      | .ok st => .ok { t with storage := st }
    else .ok t
  else .ok t

/-- Embeds `resize_impl_cpu` (src/aten/native/resize.rs).  The `stride`
branch is `todo!()` in the source, i.e. a panic; `resize` always passes
`None`. -/
def resize_impl_cpu (t : TensorImpl) (size : List Nat) (stride : Option (List Nat))
    (fresh : List Nat) : Except PanicE TensorImpl :=
  match stride with
  | some _ => .error .panic
  | none =>
      let t1 := t.set_sizes_contiguous size
      may_be_resize_storage_cpu t1 t1.numel fresh

@[simp]
theorem set_sizes_contiguous_storage (t : TensorImpl) (ns : List Nat) :
    (t.set_sizes_contiguous ns).storage = t.storage := rfl

@[simp]
theorem set_sizes_contiguous_offset (t : TensorImpl) (ns : List Nat) :
    (t.set_sizes_contiguous ns).storage_offset = t.storage_offset := rfl

@[simp]
theorem set_sizes_contiguous_itemsize (t : TensorImpl) (ns : List Nat) :
    (t.set_sizes_contiguous ns).itemsize = t.itemsize := rfl

@[simp]
theorem set_sizes_contiguous_numel (t : TensorImpl) (ns : List Nat) :
    (t.set_sizes_contiguous ns).numel = ns.prod := rfl

@[simp]
theorem set_sizes_contiguous_sizes (t : TensorImpl) (ns : List Nat) :
    (t.set_sizes_contiguous ns).sizes = ns := rfl

@[simp]
theorem set_sizes_contiguous_strides (t : TensorImpl) (ns : List Nat) :
    (t.set_sizes_contiguous ns).strides = contiguousStrides ns := rfl

/-- Sample tensor backed by a non-resizable 16-byte storage. -/
def t5c : TensorImpl :=
  { sizes := [4], strides := [1], storage_offset := 0, numel := 4, itemsize := 4,
    storage := { data_ptr := List.replicate 16 0, nbytes := 16, resizable := false },
    is_contiguous := true, is_non_overlapping_and_dense := true }

/-- C5 counterexample: a tensor backed by a non-resizable Storage is resized
to a SMALLER size and the call succeeds (no panic), refuting "always fails
... regardless of whether the requested size is larger, equal, or
smaller". -/
theorem nonresizable_shrink_succeeds :
    t5c.storage.resizable = false ∧
      resize_impl_cpu t5c [2] none [] = .ok (t5c.set_sizes_contiguous [2]) := by
  constructor
  · rfl
  · rfl

/-- C5 (amended): a resize of a tensor backed by a non-resizable Storage
panics exactly when it would need to grow the storage, i.e. when the new
element count is positive and the required bytes exceed the current
`nbytes`; equal, smaller or zero-element requests succeed. -/
theorem nonresizable_panics_iff_growth (t : TensorImpl) (size fresh : List Nat)
    (h : t.storage.resizable = false) :
    resize_impl_cpu t size none fresh = .error .panic ↔
      (0 < size.prod ∧ t.storage.nbytes < (size.prod + t.storage_offset) * t.itemsize) := by
  by_cases h1 : 0 < size.prod
  · by_cases h2 : t.storage.nbytes < (size.prod + t.storage_offset) * t.itemsize
    · simp [resize_impl_cpu, may_be_resize_storage_cpu, resize_bytes, h, h1, h2]
    · simp [resize_impl_cpu, may_be_resize_storage_cpu, h1, h2]
  · simp [resize_impl_cpu, may_be_resize_storage_cpu, h1]

/-- Witness for `nonresizable_panics_iff_growth` at a concrete growing
request on `t5c`. -/
theorem nonresizable_panics_iff_growth_witness :
    t5c.storage.resizable = false ∧
      (resize_impl_cpu t5c [8] none (List.replicate 32 7) = .error .panic ↔
        (0 < ([8] : List Nat).prod ∧
          t5c.storage.nbytes < (([8] : List Nat).prod + t5c.storage_offset) * t5c.itemsize)) :=
  ⟨rfl, nonresizable_panics_iff_growth t5c [8] (List.replicate 32 7) rfl⟩

/-- Sample tensor with a nonzero storage offset over a small resizable
storage, used to refute the unqualified grow-iff claim. -/
def t6c : TensorImpl :=
  { sizes := [4], strides := [1], storage_offset := 2, numel := 4, itemsize := 4,
    storage := { data_ptr := List.replicate 4 0, nbytes := 4, resizable := true },
    is_contiguous := true, is_non_overlapping_and_dense := true }

/-- C6 counterexample: resizing to zero elements with a nonzero storage
offset makes the required byte count (new numel + offset) * itemsize
exceed `nbytes`, yet the storage is NOT grown (it is left untouched),
refuting the claimed "grows if and only if". -/
theorem zero_numel_resize_skips_growth :
    t6c.storage.nbytes < (([0] : List Nat).prod + t6c.storage_offset) * t6c.itemsize ∧
      resize_impl_cpu t6c [0] none (List.replicate 8 9) = .ok (t6c.set_sizes_contiguous [0]) ∧
      (t6c.set_sizes_contiguous [0]).storage = t6c.storage := by
  refine ⟨by decide, by rfl, rfl⟩

/-- C6 (amended): when the new element count is positive and the backing
Storage is resizable, the resize grows the storage iff the required byte
count exceeds the current `nbytes`; on growth from N to M > N bytes the
first N bytes are copied forward (preserved) and the buffer has length M
(newly exposed bytes carry whatever the allocator returned); otherwise the
storage is left unchanged. -/
theorem resize_growth_iff_and_preserves (t : TensorImpl) (size fresh : List Nat)
    (h1 : 0 < size.prod) (h2 : t.storage.resizable = true)
    (h3 : t.storage.data_ptr.length = t.storage.nbytes)
    (h4 : fresh.length = (size.prod + t.storage_offset) * t.itemsize) :
    (t.storage.nbytes < (size.prod + t.storage_offset) * t.itemsize →
      ∃ t2, resize_impl_cpu t size none fresh = .ok t2 ∧
        t2.storage.nbytes = (size.prod + t.storage_offset) * t.itemsize ∧
        t2.storage.data_ptr.length = (size.prod + t.storage_offset) * t.itemsize ∧
        t2.storage.data_ptr.take t.storage.nbytes = t.storage.data_ptr) ∧
    ((size.prod + t.storage_offset) * t.itemsize ≤ t.storage.nbytes →
      resize_impl_cpu t size none fresh = .ok (t.set_sizes_contiguous size) ∧
        (t.set_sizes_contiguous size).storage = t.storage) := by
  constructor
  · intro hlt
    have hnsb0 : (size.prod + t.storage_offset) * t.itemsize ≠ 0 := by omega
    by_cases hemp : t.storage.data_ptr.isEmpty
    · have hdata : t.storage.data_ptr = [] := List.isEmpty_iff.mp hemp
      have hnb : t.storage.nbytes = 0 := by rw [← h3, hdata]; rfl
      refine ⟨{ t.set_sizes_contiguous size with
                storage := { data_ptr := fresh,
                             nbytes := (size.prod + t.storage_offset) * t.itemsize,
                             resizable := true } }, ?_, rfl, h4, ?_⟩
      · simp [resize_impl_cpu, may_be_resize_storage_cpu, resize_bytes, h1, h2, hlt,
              hnsb0, hemp]
      · rw [hnb, hdata]; rfl
    · have hcap : ¬ (size.prod + t.storage_offset) * t.itemsize < t.storage.nbytes := by
        omega
      have hpos : 0 < t.storage.nbytes := by
        rw [← h3]
        cases hd : t.storage.data_ptr with
        | nil => rw [hd] at hemp; simp at hemp
        | cons a as => simp [hd]
      refine ⟨{ t.set_sizes_contiguous size with
                storage := { data_ptr := t.storage.data_ptr.take t.storage.nbytes ++
                                fresh.drop t.storage.nbytes,
                             nbytes := (size.prod + t.storage_offset) * t.itemsize,
                             resizable := true } }, ?_, rfl, ?_, ?_⟩
      · simp [resize_impl_cpu, may_be_resize_storage_cpu, resize_bytes, h1, h2, hlt,
              hnsb0, hemp, hcap, hpos]
      · simp only [List.length_append, List.length_take, List.length_drop, h3, h4]
        omega
      · have hfull : t.storage.data_ptr.take t.storage.nbytes = t.storage.data_ptr := by
          rw [← h3]; exact List.take_length _
        rw [hfull]
        have : t.storage.nbytes = t.storage.data_ptr.length := h3.symm
        rw [this]
        exact List.take_left _ _
  · intro hle
    have hnlt : ¬ t.storage.nbytes < (size.prod + t.storage_offset) * t.itemsize := by omega
    refine ⟨?_, rfl⟩
    simp [resize_impl_cpu, may_be_resize_storage_cpu, h1, hnlt]

/-- Sample tensor over a 4-byte resizable storage with known content. -/
def t6w : TensorImpl :=
  { sizes := [1], strides := [1], storage_offset := 0, numel := 1, itemsize := 4,
    storage := { data_ptr := [1, 2, 3, 4], nbytes := 4, resizable := true },
    is_contiguous := true, is_non_overlapping_and_dense := true }

/-- Witness for `resize_growth_iff_and_preserves` at a concrete growing
resize of `t6w` from 4 to 8 bytes. -/
theorem resize_growth_iff_and_preserves_witness :
    0 < ([2] : List Nat).prod ∧
      ((t6w.storage.nbytes < (([2] : List Nat).prod + t6w.storage_offset) * t6w.itemsize →
        ∃ t2, resize_impl_cpu t6w [2] none (List.replicate 8 5) = .ok t2 ∧
          t2.storage.nbytes = (([2] : List Nat).prod + t6w.storage_offset) * t6w.itemsize ∧
          t2.storage.data_ptr.length =
            (([2] : List Nat).prod + t6w.storage_offset) * t6w.itemsize ∧
          t2.storage.data_ptr.take t6w.storage.nbytes = t6w.storage.data_ptr) ∧
      ((([2] : List Nat).prod + t6w.storage_offset) * t6w.itemsize ≤ t6w.storage.nbytes →
        resize_impl_cpu t6w [2] none (List.replicate 8 5) = .ok (t6w.set_sizes_contiguous [2]) ∧
          (t6w.set_sizes_contiguous [2]).storage = t6w.storage)) :=
  ⟨by decide,
    resize_growth_iff_and_preserves t6w [2] (List.replicate 8 5) (by decide) rfl
      (by decide) (by decide)⟩

/-- C10: when the new element count is zero, or the required bytes
(including the storage offset) fit in the current allocation, the resize
returns with the Storage record (data pointer content and `nbytes`)
completely unchanged. -/
theorem resize_no_growth_leaves_storage_unchanged (t : TensorImpl) (size : List Nat)
    (fresh : List Nat)
    (h : size.prod = 0 ∨ (size.prod + t.storage_offset) * t.itemsize ≤ t.storage.nbytes) :
    resize_impl_cpu t size none fresh = .ok (t.set_sizes_contiguous size) ∧
      (t.set_sizes_contiguous size).storage = t.storage := by
  refine ⟨?_, rfl⟩
  rcases h with h0 | hle
  · simp [resize_impl_cpu, may_be_resize_storage_cpu, h0]
  · by_cases h1 : 0 < size.prod
    · have hnlt : ¬ t.storage.nbytes < (size.prod + t.storage_offset) * t.itemsize := by
        omega
      simp [resize_impl_cpu, may_be_resize_storage_cpu, h1, hnlt]
    · simp [resize_impl_cpu, may_be_resize_storage_cpu, h1]

/-- Witness for `resize_no_growth_leaves_storage_unchanged`: shrinking
`t5c`-shaped metadata over a resizable 16-byte storage to 2 elements
leaves the storage untouched. -/
theorem resize_no_growth_leaves_storage_unchanged_witness :
    (([1] : List Nat).prod = 0 ∨
        (([1] : List Nat).prod + t6w.storage_offset) * t6w.itemsize ≤ t6w.storage.nbytes) ∧
      (resize_impl_cpu t6w [1] none [] = .ok (t6w.set_sizes_contiguous [1]) ∧
        (t6w.set_sizes_contiguous [1]).storage = t6w.storage) :=
  ⟨Or.inr (by decide),
    resize_no_growth_leaves_storage_unchanged t6w [1] [] (Or.inr (by decide))⟩

/-- Running products: `scanMul z [a, b, c] = [z, z*a, z*a*b]`.  These are
exactly the expected-stride values `z` takes while `compute_contiguous`
walks the dimensions last-to-first. -/
def scanMul : Nat → List Nat → List Nat
  | _, [] => []
  | z, s :: rest => z :: scanMul (z * s) rest

theorem scanMul_append (z : Nat) (xs ys : List Nat) :
    scanMul z (xs ++ ys) = scanMul z xs ++ scanMul (z * xs.prod) ys := by
  induction xs generalizing z with
  | nil => simp [scanMul]
  | cons x xs ih =>
      show z :: scanMul (z * x) (xs ++ ys) =
        z :: (scanMul (z * x) xs ++ scanMul (z * (x * xs.prod)) ys)
      rw [ih (z * x), Nat.mul_assoc]

theorem ccLoop_zip_scanMul (l : List Nat) (z : Nat) :
    ccLoop (l.zip (scanMul z l)) z = true := by
  induction l generalizing z with
  | nil => rfl
  | cons s rest ih =>
      by_cases hs : s = 1
      · subst hs
        simpa [scanMul, ccLoop] using ih z
      · simpa [scanMul, ccLoop, hs] using ih (z * s)

theorem contiguousStrides_length (l : List Nat) :
    (contiguousStrides l).length = l.length := by
  match l with
  | [] => rfl
  | [_] => rfl
  | a :: b :: rest =>
      simp only [contiguousStrides, List.length_cons]
      rw [contiguousStrides_length (b :: rest)]
      rfl

theorem contiguousStrides_headD (l : List Nat) (h : ∀ s ∈ l, 1 ≤ s) :
    (contiguousStrides l).headD 1 = (l.drop 1).prod := by
  match l with
  | [] => rfl
  | [_] => rfl
  | a :: b :: rest =>
      have hb : 1 ≤ b := h b (by simp)
      have ih := contiguousStrides_headD (b :: rest) (fun s hs => h s (by simp [hs]))
      simp only [contiguousStrides, List.headD_cons, List.drop_succ_cons, List.drop_zero,
        List.prod_cons]
      rw [ih]
      simp only [List.drop_succ_cons, List.drop_zero] at *
      rw [Nat.max_eq_left hb, Nat.mul_comm]

theorem contiguousStrides_reverse (l : List Nat) (h : ∀ s ∈ l, 1 ≤ s) :
    (contiguousStrides l).reverse = scanMul 1 l.reverse := by
  match l with
  | [] => rfl
  | [_] => rfl
  | a :: b :: rest =>
      have hb : 1 ≤ b := h b (by simp)
      have ih := contiguousStrides_reverse (b :: rest) (fun s hs => h s (by simp [hs]))
      have hhead : (contiguousStrides (b :: rest)).headD 1 = rest.prod := by
        simpa using contiguousStrides_headD (b :: rest) (fun s hs => h s (by simp [hs]))
      show ((contiguousStrides (b :: rest)).headD 1 * max b 1 ::
          contiguousStrides (b :: rest)).reverse = scanMul 1 (a :: b :: rest).reverse
      rw [List.reverse_cons, ih, hhead, Nat.max_eq_left hb]
      rw [show (a :: b :: rest).reverse = (b :: rest).reverse ++ [a] from
        List.reverse_cons a (b :: rest)]
      rw [scanMul_append 1 (b :: rest).reverse [a], List.prod_reverse]
      show scanMul 1 (b :: rest).reverse ++ [rest.prod * b] =
        scanMul 1 (b :: rest).reverse ++ [1 * (b :: rest).prod]
      congr 1
      simp [List.prod_cons, Nat.mul_comm]

theorem zip_reverse_eq {α β : Type} (a : List α) (b : List β) (h : a.length = b.length) :
    (a.zip b).reverse = a.reverse.zip b.reverse := by
  induction a generalizing b with
  | nil => simp
  | cons x xs ih =>
      cases b with
      | nil => simp at h
      | cons y ys =>
          have hl : xs.length = ys.length := by simpa using h
          simp only [List.zip_cons_cons, List.reverse_cons, ih ys hl]
          rw [List.zip_append (by simp [hl])]
          rfl

theorem contiguousStrides_getElem (l : List Nat) (h : ∀ s ∈ l, 1 ≤ s) (i : Nat)
    (hi : i < l.length) :
    (contiguousStrides l)[i]? = some ((l.drop (i + 1)).prod) := by
  match l, i with
  | [_], 0 => rfl
  | a :: b :: rest, 0 =>
      have hb : 1 ≤ b := h b (by simp)
      have hhead := contiguousStrides_headD (b :: rest) (fun s hs => h s (by simp [hs]))
      simp only [contiguousStrides, List.getElem?_cons_zero, List.drop_succ_cons,
        List.drop_zero, List.prod_cons, Option.some.injEq]
      simp only [List.drop_succ_cons, List.drop_zero] at hhead
      rw [hhead, Nat.max_eq_left hb, Nat.mul_comm]
  | a :: b :: rest, i + 1 =>
      have ih := contiguousStrides_getElem (b :: rest) (fun s hs => h s (by simp [hs])) i
        (by simpa using hi)
      simpa [contiguousStrides] using ih

/-- C7: a tensor produced by `set_sizes_contiguous` with all dimensions at
least 1 satisfies the contiguity invariant: `is_contiguous` is true and
the i-th stride equals the product of the sizes after dimension i. -/
theorem set_sizes_contiguous_contiguity (t : TensorImpl) (ns : List Nat)
    (h : ∀ s ∈ ns, 1 ≤ s) :
    (t.set_sizes_contiguous ns).is_contiguous = true ∧
      ∀ i, i < ns.length →
        (t.set_sizes_contiguous ns).strides[i]? = some ((ns.drop (i + 1)).prod) := by
  constructor
  · show TensorImpl.compute_contiguous _ = true
    unfold TensorImpl.compute_contiguous
    by_cases h0 : ns.prod = 0
    · simp [TensorImpl.set_sizes_contiguous, h0]
    · have hz : (ns.zip (contiguousStrides ns)).reverse =
          ns.reverse.zip (scanMul 1 ns.reverse) := by
        rw [zip_reverse_eq ns (contiguousStrides ns) (contiguousStrides_length ns).symm,
          contiguousStrides_reverse ns h]
      simp only [TensorImpl.set_sizes_contiguous, h0, if_false, hz]
      exact ccLoop_zip_scanMul ns.reverse 1
  · intro i hi
    rw [set_sizes_contiguous_strides]
    exact contiguousStrides_getElem ns h i hi

/-- Witness for `set_sizes_contiguous_contiguity`: resizing to [2, 3, 4]
yields a contiguous tensor with strides [12, 4, 1]. -/
theorem set_sizes_contiguous_contiguity_witness :
    (∀ s ∈ ([2, 3, 4] : List Nat), 1 ≤ s) ∧
      ((t6w.set_sizes_contiguous [2, 3, 4]).is_contiguous = true ∧
        ∀ i, i < ([2, 3, 4] : List Nat).length →
          (t6w.set_sizes_contiguous [2, 3, 4]).strides[i]? =
            some ((([2, 3, 4] : List Nat).drop (i + 1)).prod)) :=
  ⟨by decide, set_sizes_contiguous_contiguity t6w [2, 3, 4] (by decide)⟩

/-- Embeds `Edge` (graph edge): an optional target Node (identified here by
its index in the node list, standing for the Rc pointer identity) and the
input slot `input_nr` of that Node. -/
structure EngineEdge where
  function : Option Nat
  input_nr : Nat
  deriving Repr, DecidableEq

/-- Modelled from the spec: the Node interface consumed by the Engine
(src/engine/engine.rs); the Node enum itself is outside src/.  A Node
exposes its outgoing edges (`next_edges()` returns an Option in the
source), its arity `num_inputs()`, and `call`, which runs the local
derivative on the accumulated input gradients and returns one output
gradient per forward input (a GraphRoot returns the seed gradients).  The
gradient payload type is a parameter: the scheduler never inspects the
values. -/
structure GraphNode (α : Type) where
  next_edges : Option (List EngineEdge)
  num_inputs : Nat
  call : List (Option α) → List α

/-- Fallback node for a dangling node pointer (never hit in the traces
below). -/
def defaultNode {α : Type} : GraphNode α :=
  { next_edges := none, num_inputs := 0, call := fun _ => [] }

/-- Modelled from the spec: `Node::next_edge(i)` returns the i-th outgoing
Edge if there is one. -/
def nextEdge {α : Type} (n : GraphNode α) (i : Nat) : Option EngineEdge :=
  (n.next_edges.getD []).get? i

/-- Modelled from the spec: `GraphTask` scheduling state (engine/task.rs is
outside src/): dependency counts keyed by Node identity, the
outstanding-task counter, and the ready queue of (node, input buffer)
units.  The queue is the `Vec`-backed `ReadyQueue` (push/pop at the
back). -/
structure TaskState (α : Type) where
  dependencies : List (Nat × Nat)
  outstanding_tasks : Nat
  ready_queue : List (Nat × List (Option α))
  deriving DecidableEq

/-- Association-list read of a dependency count (HashMap `get`). -/
def lookupDep (deps : List (Nat × Nat)) (k : Nat) : Option Nat :=
  (deps.find? (fun p => p.1 == k)).map (fun p => p.2)

/-- HashMap `entry(k).or_insert(0) += 1` on the association list. -/
def bumpDep : List (Nat × Nat) → Nat → List (Nat × Nat)
  | [], k => [(k, 1)]
  | (a, v) :: rest, k =>
      if a = k then (a, v + 1) :: rest else (a, v) :: bumpDep rest k

/-- HashMap `remove_entry(k)` on the association list. -/
def removeDep : List (Nat × Nat) → Nat → List (Nat × Nat)
  | [], _ => []
  | (a, v) :: rest, k =>
      if a = k then rest else (a, v) :: removeDep rest k

/-- Modelled from the spec: `InputBuffer::new_with_size` — a buffer of
empty slots sized to the consumer's arity. -/
def bufferNew {α : Type} (n : Nat) : List (Option α) :=
  List.replicate n none

/-- Modelled from the spec: `InputBuffer::add(idx, v)` places the gradient
at the Edge's `input_nr` slot. -/
def bufferAdd {α : Type} (buf : List (Option α)) (idx : Nat) (v : α) : List (Option α) :=
  buf.set idx (some v)

/-- Embeds the edge loop inside `Engine::compute_dependencies`
(src/engine/engine.rs): for every edge with a target, bump the target's
dependency count, and enqueue the target the first time it is seen. -/
def visitEdges : List EngineEdge → List Nat → List Nat → List (Nat × Nat) →
    List Nat × List Nat × List (Nat × Nat)
  | [], queue, seen, deps => (queue, seen, deps)
  | e :: rest, queue, seen, deps =>
      match e.function with
      | none => visitEdges rest queue seen deps
      | some l =>
          let deps2 := bumpDep deps l
          if l ∈ seen then visitEdges rest queue seen deps2
          else visitEdges rest (queue ++ [l]) (l :: seen) deps2

/-- Embeds the worklist loop of `Engine::compute_dependencies`
(src/engine/engine.rs); the `Vec` queue pops from the back.  Fuel bounds
the iteration count; the loop result is the dependencies map. -/
def computeDepsLoop {α : Type} (g : List (GraphNode α)) :
    Nat → List Nat → List Nat → List (Nat × Nat) → List (Nat × Nat)
  | 0, _, _, deps => deps
  | fuel + 1, queue, seen, deps =>
      match queue.getLast? with
      | none => deps
      | some fn =>
          let queue2 := queue.dropLast
          let node := (g.get? fn).getD defaultNode
          match node.next_edges with
          | none => computeDepsLoop g fuel queue2 seen deps
          | some edges =>
              match visitEdges edges queue2 seen deps with
              | (q2, s2, d2) => computeDepsLoop g fuel q2 s2 d2

/-- Embeds the output loop of `Engine::evaluate_function`
(src/engine/engine.rs, lines 63-101), faithfully including: the
`continue` that does NOT advance `i` when `next_edge(i)` is `None`; the
`unwrap` panic on a functionless Edge; the `panic!()` when the target has
no dependencies entry; and the local-variable decrement of the dependency
count (the map entry itself is only removed when the read count was 1,
never written back otherwise).  `none` means the fuel ran out before the
loop finished. -/
def evalOutputsLoop {α : Type} (g : List (GraphNode α)) (fn_ : GraphNode α)
    (outputs : List α) :
    Nat → Nat → TaskState α → Option (Except PanicE (TaskState α))
  | 0, _, _ => none
  | fuel + 1, i, st =>
      if outputs.length ≤ i then some (.ok st)
      else
        match outputs[i]? with
        | none => some (.error .panic)
        | some output =>
            match nextEdge fn_ i with
            | none => evalOutputsLoop g fn_ outputs fuel i st
            | some next =>
                match next.function with
                | none => some (.error .panic)
                | some t =>
                    match lookupDep st.dependencies t with
                    | none => some (.error .panic)
                    | some c =>
                        let count := c - 1
                        let deps2 :=
                          if count = 0 then removeDep st.dependencies t
                          else st.dependencies
                        let numIn := ((g.get? t).getD defaultNode).num_inputs
                        let input_buffer := bufferAdd (bufferNew numIn) next.input_nr output
                        let st2 :=
                          if count = 0 then
                            { st with dependencies := deps2,
                                      ready_queue := st.ready_queue ++ [(t, input_buffer)],
                                      outstanding_tasks := st.outstanding_tasks + 1 }
                          else { st with dependencies := deps2 }
                        evalOutputsLoop g fn_ outputs fuel (i + 1) st2

/-- Embeds `Engine::thread_main` (src/engine/engine.rs): pop a unit from
the back of the ready queue, run `evaluate_function` on it, decrement
`outstanding_tasks`, stop when the completion predicate
(`outstanding_tasks == 0`, modelled from the spec's GraphTask contract)
holds.  `none` means the fuel ran out (or the worker blocked on an empty
queue) before completion. -/
def threadMain {α : Type} (g : List (GraphNode α)) :
    Nat → TaskState α → Option (Except PanicE (TaskState α))
  | 0, _ => none
  | fuel + 1, st =>
      match st.ready_queue.getLast? with
      | none => none
      | some (nid, buf) =>
          let st1 := { st with ready_queue := st.ready_queue.dropLast }
          let node := (g.get? nid).getD defaultNode
          let outputs := node.call buf
          match evalOutputsLoop g node outputs fuel 0 st1 with
          | none => none
          | some (.error e) => some (.error e)
          | some (.ok st2) =>
              let st3 := { st2 with outstanding_tasks := st2.outstanding_tasks - 1 }
              if st3.outstanding_tasks = 0 then some (.ok st3)
              else threadMain g fuel st3

/-- Embeds `Engine::execute` / `execute_with_graph_task`
(src/engine/engine.rs): the node list `g` already contains the synthetic
GraphRoot at index `rootId` (a node whose `call` returns the seed
gradients and whose `next_edges` are the root edges); dependencies are
computed from the root, the root task is pushed with an empty input
buffer and `outstanding_tasks = 1`, and the worker loop drains the
queue. -/
def executeEngine {α : Type} (g : List (GraphNode α)) (rootId : Nat) (fuel : Nat) :
    Option (Except PanicE (TaskState α)) :=
  let deps := computeDepsLoop g fuel [rootId] [] []
  threadMain g fuel { dependencies := deps, outstanding_tasks := 1,
                      ready_queue := [(rootId, bufferNew 0)] }

/-- GraphRoot producing one seed gradient but having zero outgoing root
edges: `next_edge(0)` is `None` while `call` produces one output. -/
def g2root : GraphNode Unit :=
  { next_edges := some [], num_inputs := 0, call := fun _ => [()] }

/-- One-node graph around `g2root`. -/
def g2 : List (GraphNode Unit) := [g2root]

theorem evalLoop_g2_none : ∀ (fuel : Nat) (st : TaskState Unit),
    evalOutputsLoop g2 g2root [()] fuel 0 st = none := by
  intro fuel
  induction fuel with
  | zero => intro st; rfl
  | succ f ih =>
      intro st
      simpa [evalOutputsLoop, nextEdge, g2root] using ih st

theorem threadMain_g2_none : ∀ (f : Nat) (deps : List (Nat × Nat)) (o : Nat),
    threadMain g2 f
      { dependencies := deps, outstanding_tasks := o,
        ready_queue := [(0, bufferNew 0)] } = none := by
  intro f deps o
  cases f with
  | zero => rfl
  | succ f =>
      have h := evalLoop_g2_none f
        { dependencies := deps, outstanding_tasks := o, ready_queue := [] }
      simp only [g2, g2root] at h
      simp [threadMain, g2, g2root, bufferNew, h]

/-- C2: the execution loop of `evaluate_function` live-locks instead of
discarding an output with no corresponding outgoing Edge: on a GraphRoot
with one seed gradient and zero root edges, for EVERY fuel bound the
engine fails to finish (the `continue` at the `next.is_none()` branch
never advances the output index `i`). -/
theorem engine_execute_livelocks_on_missing_edge :
    ∀ fuel, executeEngine g2 0 fuel = none := by
  intro fuel
  unfold executeEngine
  exact threadMain_g2_none fuel _ 1

/-- Witness running `engine_execute_livelocks_on_missing_edge` at a
concrete fuel bound. -/
theorem engine_execute_livelocks_on_missing_edge_witness :
    executeEngine g2 0 7 = none :=
  engine_execute_livelocks_on_missing_edge 7

/-- GraphRoot with two root edges, both pointing at node 1 (input slots 0
and 1): node 1 has in-degree 2. -/
def g3root : GraphNode Unit :=
  { next_edges := some [⟨some 1, 0⟩, ⟨some 1, 1⟩], num_inputs := 0,
    call := fun _ => [(), ()] }

/-- Fan-in consumer of arity 2 with no own outputs. -/
def g3fanin : GraphNode Unit :=
  { next_edges := some [], num_inputs := 2, call := fun _ => [] }

/-- Two-node graph with a fan-in-2 consumer. -/
def g3 : List (GraphNode Unit) := [g3root, g3fanin]

/-- C3: on the fan-in graph `g3` the run COMPLETES (`outstanding_tasks`
reaches 0) while the dependencies map still holds node 1 with its
original count 2: the dependency count is decremented only into a local
variable and never stored back, so node 1 is never scheduled and the map
is not emptied. -/
theorem engine_dependencies_not_emptied_on_fan_in :
    executeEngine g3 0 10 =
      some (.ok { dependencies := [(1, 2)], outstanding_tasks := 0,
                  ready_queue := [] }) := by
  rfl

/-- C8: whenever `evaluate_function` delivers a gradient across an edge
whose target Node has no entry in the dependencies map, it panics
(aborts the backward call) rather than continuing. -/
theorem evaluate_function_panics_on_missing_dependency {α : Type}
    (g : List (GraphNode α)) (fn_ : GraphNode α) (outputs : List α) (i : Nat)
    (st : TaskState α) (e : EngineEdge) (t fuel : Nat)
    (h1 : i < outputs.length) (h2 : nextEdge fn_ i = some e)
    (h3 : e.function = some t) (h4 : lookupDep st.dependencies t = none) :
    evalOutputsLoop g fn_ outputs (fuel + 1) i st = some (.error .panic) := by
  have hle : ¬ outputs.length ≤ i := Nat.not_le.mpr h1
  simp [evalOutputsLoop, hle, List.getElem?_eq_getElem h1, h2, h3, h4]

/-- Node whose single edge targets node 5, used to witness the
missing-dependency panic. -/
def w8node : GraphNode Unit :=
  { next_edges := some [⟨some 5, 0⟩], num_inputs := 1, call := fun _ => [] }

/-- Witness for `evaluate_function_panics_on_missing_dependency` on a
concrete state with an empty dependencies map. -/
theorem evaluate_function_panics_on_missing_dependency_witness :
    (0 : Nat) < ([()] : List Unit).length ∧
      evalOutputsLoop ([] : List (GraphNode Unit)) w8node [()] 1 0
        { dependencies := [], outstanding_tasks := 1, ready_queue := [] } =
        some (.error .panic) :=
  ⟨by decide,
    evaluate_function_panics_on_missing_dependency [] w8node [()] 0
      { dependencies := [], outstanding_tasks := 1, ready_queue := [] }
      ⟨some 5, 0⟩ 5 0 (by decide) rfl rfl rfl⟩

/-- Embeds `AutogradMeta` (per-tensor autograd record): requires_grad, the
producing Node (`grad_fn_`), the output slot, and the weak back-reference
to the leaf accumulator Node.  Node references are indices into the node
heap of `AGState`, standing for Rc pointer identity. -/
structure TensorMeta where
  requires_grad : Bool
  grad_fn_ : Option Nat
  output_nr : Nat
  grad_accumulator_ : Option Nat
  deriving Repr, DecidableEq

/-- Node record as seen by graph construction: the outgoing edges and the
list of tensors registered via `add_input_metadata` (one entry per output
slot). -/
structure NodeRec where
  next_edges_ : Option (List EngineEdge)
  input_metadata_ : List Nat
  deriving Repr, DecidableEq

/-- Heap state for graph construction: tensors (an entry is `none` when the
tensor has no AutogradMeta yet), allocated Nodes, and the global grad
mode (`GradMode::is_enabled`). -/
structure AGState where
  tensors : List (Option TensorMeta)
  nodes : List NodeRec
  grad_mode : Bool
  deriving Repr, DecidableEq

/-- Weak-reference upgrade: succeeds exactly when the referenced Node is
allocated and still alive (nothing is dropped in this model, so every
allocated Node is alive). -/
def upgradeWeak (s : AGState) (w : Option Nat) : Option Nat :=
  match w with
  | none => none
  | some a => if a < s.nodes.length then some a else none

/-- Embeds `grad_accumulator` (src/util_autograd.rs): panics on non-leaf
tensors, returns none when grad is not required, otherwise upgrades the
memoized weak reference or lazily creates an `AccumulateGrad` Node and
stores a weak reference to it in the tensor's meta. -/
def grad_accumulator (s : AGState) (tid : Nat) : Except PanicE (Option Nat × AGState) :=
  match (s.tensors.get? tid).getD none with
  | none => .ok (none, s)
  | some meta =>
      if meta.grad_fn_.isSome then .error .panic
      else if meta.requires_grad = false then .ok (none, s)
      else
        match upgradeWeak s meta.grad_accumulator_ with
        | some acc => .ok (some acc, s)
        | none =>
            let nid := s.nodes.length
            let meta2 := { meta with grad_accumulator_ := some nid }
            .ok (some nid,
              { s with nodes := s.nodes ++ [{ next_edges_ := none, input_metadata_ := [] }],
                       tensors := s.tensors.set tid (some meta2) })

/-- C9: obtaining the gradient accumulator for the same leaf tensor twice
returns the same Node identity — the first call memoizes the (possibly
freshly created) accumulator through the weak back-reference, and the
second call upgrades it. -/
theorem grad_accumulator_memoized (s : AGState) (tid i : Nat) (s2 : AGState)
    (hfst : grad_accumulator s tid = .ok (some i, s2)) :
    grad_accumulator s2 tid = .ok (some i, s2) := by
  cases hm : s.tensors[tid]?.getD none with
  | none =>
      have hval : grad_accumulator s tid = .ok (none, s) := by
        simp [grad_accumulator, List.get?_eq_getElem?, hm]
      rw [hval] at hfst
      simp at hfst
  | some meta =>
      by_cases hfn : meta.grad_fn_.isSome = true
      · have hval : grad_accumulator s tid = .error .panic := by
          simp [grad_accumulator, List.get?_eq_getElem?, hm, hfn]
        rw [hval] at hfst
        simp at hfst
      · by_cases hrg : meta.requires_grad = false
        · have hval : grad_accumulator s tid = .ok (none, s) := by
            simp [grad_accumulator, List.get?_eq_getElem?, hm, hfn, hrg]
          rw [hval] at hfst
          simp at hfst
        · cases hup : upgradeWeak s meta.grad_accumulator_ with
          | some acc =>
              have hval : grad_accumulator s tid = .ok (some acc, s) := by
                simp [grad_accumulator, List.get?_eq_getElem?, hm, hfn, hrg, hup]
              rw [hval] at hfst
              have hpair : acc = i ∧ s = s2 := by simpa using hfst
              obtain ⟨hi, hs⟩ := hpair
              subst hi
              subst hs
              exact hval
          | none =>
              have htid : tid < s.tensors.length := by
                by_contra hge
                have hnone : s.tensors[tid]? = none :=
                  List.getElem?_eq_none (Nat.le_of_not_lt hge)
                rw [hnone] at hm
                simp at hm
              have hval : grad_accumulator s tid =
                  .ok (some s.nodes.length,
                    { s with
                      nodes := s.nodes ++ [{ next_edges_ := none, input_metadata_ := [] }],
                      tensors := s.tensors.set tid
                        (some { meta with grad_accumulator_ := some s.nodes.length }) }) := by
                simp [grad_accumulator, List.get?_eq_getElem?, hm, hfn, hrg, hup]
              rw [hval] at hfst
              have hpair : s.nodes.length = i ∧
                  ({ s with
                     nodes := s.nodes ++ [{ next_edges_ := none, input_metadata_ := [] }],
                     tensors := s.tensors.set tid
                       (some { meta with grad_accumulator_ := some s.nodes.length }) } :
                    AGState) = s2 := by
                simpa using hfst
              obtain ⟨hi, hs⟩ := hpair
              subst hi
              subst hs
              simp [grad_accumulator, List.get?_eq_getElem?,
                List.getElem?_set_eq_of_lt _ htid, hfn, hrg, upgradeWeak,
                Nat.lt_succ_self]

/-- Embeds `TensorImpl::requires_grad` read through the optional meta. -/
def tensorRequiresGrad (s : AGState) (tid : Nat) : Bool :=
  match (s.tensors.get? tid).getD none with
  | none => false
  | some m => m.requires_grad

/-- Embeds `compute_requires_grad` (src/util_autograd.rs): false when the
global grad mode is off, otherwise true iff any input requires grad. -/
def compute_requires_grad (s : AGState) (tids : List Nat) : Bool :=
  if s.grad_mode = false then false
  else tids.any (fun t => tensorRequiresGrad s t)

/-- Tensor's `grad_fn()` through the optional meta. -/
def tensorGradFn (s : AGState) (tid : Nat) : Option Nat :=
  ((s.tensors.get? tid).getD none).bind (fun m => m.grad_fn_)

/-- Tensor's `output_nr()` through the optional meta (0 when absent). -/
def tensorOutputNr (s : AGState) (tid : Nat) : Nat :=
  (((s.tensors.get? tid).getD none).map (fun m => m.output_nr)).getD 0

/-- Embeds `gradient_edge` (src/util_autograd.rs): `(grad_fn, output_nr)`
for a non-leaf, otherwise an edge to the (lazily created) accumulator at
slot 0. -/
def gradient_edge (s : AGState) (tid : Nat) : Except PanicE (EngineEdge × AGState) :=
  match tensorGradFn s tid with
  | some gf => .ok ({ function := some gf, input_nr := tensorOutputNr s tid }, s)
  | none =>
      match grad_accumulator s tid with
      | .error e => .error e
      | .ok (acc, s2) => .ok ({ function := acc, input_nr := 0 }, s2)

/-- Embeds `collect_next_edges` (src/util_autograd.rs): one gradient edge
per input, threading accumulator creation through the state. -/
def collect_next_edges : AGState → List Nat → Except PanicE (List EngineEdge × AGState)
  | s, [] => .ok ([], s)
  | s, t :: ts =>
      match gradient_edge s t with
      | .error e => .error e
      | .ok (edge, s1) =>
          match collect_next_edges s1 ts with
          | .error e => .error e
          | .ok (edges, s2) => .ok (edge :: edges, s2)

/-- Modelled from the spec: `Node::add_input_metadata(tensor)` registers
one forward output with the Node and returns its stable slot index (the
count of previously registered outputs). -/
def add_input_metadata (s : AGState) (nid tid : Nat) : Nat × AGState :=
  match s.nodes.get? nid with
  | none => (0, s)
  | some nd =>
      let nd2 : NodeRec := { nd with input_metadata_ := nd.input_metadata_ ++ [tid] }
      (nd.input_metadata_.length, { s with nodes := s.nodes.set nid nd2 })

/-- Embeds `materialize_autograd_meta` (src/util_autograd.rs): create a
default AutogradMeta when none is attached. -/
def materialize_autograd_meta (s : AGState) (tid : Nat) : AGState :=
  match (s.tensors.get? tid).getD none with
  | some _ => s
  | none =>
      let m0 : TensorMeta :=
        { requires_grad := false, grad_fn_ := none, output_nr := 0,
          grad_accumulator_ := none }
      { s with tensors := s.tensors.set tid (some m0) }

/-- Embeds `set_gradient_edge` (src/util_autograd.rs): materialize the
meta, then set `grad_fn` and `output_nr` from the edge. -/
def set_gradient_edge (s : AGState) (tid nid nr : Nat) : AGState :=
  let s1 := materialize_autograd_meta s tid
  match (s1.tensors.get? tid).getD none with
  | none => s1
  | some m =>
      let m2 : TensorMeta := { m with grad_fn_ := some nid, output_nr := nr }
      { s1 with tensors := s1.tensors.set tid (some m2) }

/-- Embeds `set_history` (src/util_autograd.rs): register the tensor with
the Node via `add_input_metadata`, then install the gradient edge on the
tensor. -/
def set_history (s : AGState) (tid nid : Nat) : AGState :=
  match add_input_metadata s nid tid with
  | (nr, s1) => set_gradient_edge s1 tid nid nr

/-- Embeds `mean` (src/tensor/tensor_ops.rs): when grad is required, build
a MeanBackward Node (its saved numeric metadata — numel, sizes, scalar
type — belongs to the external kernel layer and is not needed here), set
its next edges from the input, allocate it, run the external mean kernel
(whose result is a fresh tensor with no autograd meta), and then — as the
source literally does at line 410 — call `set_history` on the INPUT
tensor `self_`, not on the result.  Returns the result tensor id. -/
def mean (s : AGState) (tid : Nat) : Except PanicE (Nat × AGState) :=
  if compute_requires_grad s [tid] then
    match collect_next_edges s [tid] with
    | .error e => .error e
    | .ok (edges, s1) =>
        let nid := s1.nodes.length
        let newNode : NodeRec := { next_edges_ := some edges, input_metadata_ := [] }
        let s2 := { s1 with nodes := s1.nodes ++ [newNode] }
        let rid := s2.tensors.length
        let s3 := { s2 with tensors := s2.tensors ++ [none] }
        .ok (rid, set_history s3 tid nid)
  else
    let rid := s.tensors.length
    .ok (rid, { s with tensors := s.tensors ++ [none] })

/-- Initial state: one leaf tensor requiring grad, no nodes, grad mode
enabled. -/
def agS0 : AGState :=
  { tensors := [some { requires_grad := true, grad_fn_ := none, output_nr := 0,
                       grad_accumulator_ := none }],
    nodes := [], grad_mode := true }

/-- State after the first `grad_accumulator` call on `agS0`'s tensor 0. -/
def agS1 : AGState :=
  { tensors := [some { requires_grad := true, grad_fn_ := none, output_nr := 0,
                       grad_accumulator_ := some 0 }],
    nodes := [{ next_edges_ := none, input_metadata_ := [] }], grad_mode := true }

/-- Witness for `grad_accumulator_memoized`: on `agS0` the first call
creates accumulator Node 0 and the second call returns the same Node. -/
theorem grad_accumulator_memoized_witness :
    grad_accumulator agS0 0 = .ok (some 0, agS1) ∧
      grad_accumulator agS1 0 = .ok (some 0, agS1) :=
  ⟨by rfl, grad_accumulator_memoized agS0 0 0 agS1 (by rfl)⟩

/-- Final state of `mean agS0 0`. -/
def meanSF : AGState :=
  { tensors := [some { requires_grad := true, grad_fn_ := some 1, output_nr := 0,
                       grad_accumulator_ := some 0 }, none],
    nodes := [{ next_edges_ := none, input_metadata_ := [] },
              { next_edges_ := some [{ function := some 0, input_nr := 0 }],
                input_metadata_ := [0] }],
    grad_mode := true }

/-- C4: on a leaf tensor requiring grad (grad mode on), `mean` returns
tensor 1 but that returned tensor carries NO autograd meta (no `grad_fn`,
no `output_nr`), while the new MeanBackward Node 1 has been installed as
`grad_fn` of the INPUT tensor 0 — the history is attached to the wrong
tensor. -/
theorem mean_sets_history_on_input_not_result :
    mean agS0 0 = .ok (1, meanSF) ∧
      meanSF.tensors[1]?.getD none = none ∧
      tensorGradFn meanSF 0 = some 1 := by
  exact ⟨by rfl, by rfl, by rfl⟩

/-- Embeds the toy `Variable` of src/ops.rs (f64 data modelled as ℚ). -/
structure Variable0 where
  data : ℚ
  grad : Option ℚ
  deriving Repr, DecidableEq

/-- Modelled from the spec: `Variable::backward` on a LEAF (variable.rs is
outside src/): the seed defaults to 1.0 and is accumulated into `grad`
(the repository's own test observes exactly this sink behavior). -/
def Variable0.backwardLeaf (v : Variable0) (g : Option ℚ) : Variable0 :=
  let seed := g.getD 1
  { v with grad := some (v.grad.getD 0 + seed) }

/-- Embeds `AddBackWard` (src/ops.rs): captures both operands. -/
structure AddBackWard where
  x : Variable0
  y : Variable0
  deriving Repr, DecidableEq

/-- Embeds `AddBackWard::apply` (src/ops.rs): delivers `grad * y.data` to
x and `grad * x.data` to y, in that order. -/
def AddBackWard.apply (f : AddBackWard) (grad : ℚ) : AddBackWard :=
  let x2 := f.x.backwardLeaf (some (grad * f.y.data))
  let y2 := f.y.backwardLeaf (some (grad * x2.data))
  { x := x2, y := y2 }

/-- Output of the toy `Add::apply`: data, grad, and the backward node. -/
structure AddOutput where
  data : ℚ
  grad : Option ℚ
  grad_fn : AddBackWard
  deriving Repr, DecidableEq

/-- Unit struct standing for the `Add` operation of src/ops.rs. -/
structure AddOp where
  deriving Repr, DecidableEq

/-- Embeds `Add::apply` (src/ops.rs): forward value `a + b`, backward node
`AddBackWard { x := a, y := b }`. -/
def AddOp.apply (_ : AddOp) (a b : Variable0) : AddOutput :=
  { data := a.data + b.data, grad := none, grad_fn := { x := a, y := b } }

/-- Modelled from the spec: `Variable::backward` on a value WITH a
`grad_fn`: the seed gradient defaults to 1.0 and is handed to
`grad_fn.apply`; the updated leaves are returned. -/
def AddOutput.backward (o : AddOutput) (g : Option ℚ) : AddBackWard :=
  let seed := g.getD 1
  o.grad_fn.apply seed

/-- Leaf a = 2.0 of the reference test. -/
def c1a : Variable0 := { data := 2, grad := none }

/-- Leaf b = 3.0 of the reference test. -/
def c1b : Variable0 := { data := 3, grad := none }

/-- Leaves after `(a + b).backward(None)` with the default seed 1.0. -/
def c1res : AddBackWard := (AddOp.apply {} c1a c1b).backward none

/-- C1: with a = 2.0, b = 3.0 and the default seed g = 1.0, the code
delivers grad_a = g * b = 3.0 and grad_b = g * a = 2.0 (the values its
own test asserts), NOT grad_a = grad_b = g = 1.0 as the additive backward
law demands. -/
theorem add_backward_delivers_multiplicative_grads :
    c1res.x.grad = some 3 ∧ c1res.y.grad = some 2 ∧
      c1res.x.grad ≠ some 1 ∧ c1res.y.grad ≠ some 1 := by
  refine ⟨?_, ?_, ?_, ?_⟩ <;>
    norm_num [c1res, AddOutput.backward, AddOp.apply, AddBackWard.apply,
      Variable0.backwardLeaf, c1a, c1b]
